import Mathlib

/-!
# jumpgate: the per-connection supervisor `sconn`

A shallow embedding of `src/jumpgate/sconn.go`.  The Go methods mutate the
receiver `sc *sconn`, query the package-level database handle `db` and call
into `golang.org/x/crypto/ssh`.  Here

* the receiver is threaded explicitly (`sconn` in, `sconn` out);
* every externally visible effect (database query, dial, channel accept/open,
  relay start, connection close) is appended to a trace of `Event`s;
* what the outside world answers (rows of the database, the callbacks the SSH
  library decides to invoke, what `select` receives) is an explicit argument.

Log lines are not part of the trace.
-/

set_option linter.dupNamespace false

namespace Jumpgate

/-! ## Library types -/

/-- An `ssh.PublicKey`, identified by its wire-format blob. -/
structure PublicKey where
  blob : String
deriving DecidableEq, Repr

/-- The part of `ssh.ConnMetadata` the code reads. -/
structure ConnMetadata where
  user : String
  remoteAddr : String
deriving DecidableEq, Repr

/-- The type `ssh.Permissions`. -/
structure Permissions where
  criticalOptions : List (String × String)
  extensions : List (String × String)
deriving DecidableEq, Repr

/-- Result of `db.QueryRowContext(...).Scan(&x)`: the scanned column, or the
error (`sql.ErrNoRows` when no row matches, or any driver error). -/
inductive Row (α : Type) where
  | ok (v : α)
  | err (msg : String)
deriving DecidableEq, Repr

/-- The package-level handle `db`, one field per SQL statement of the file:
`SELECT password FROM passwords WHERE target=$1`,
`SELECT pubkey FROM host_keys WHERE target=$1`,
`SELECT 1 FROM acl WHERE pubkey=$1 AND target=$2`. -/
structure DB where
  passwords : String → Row String
  host_keys : String → Row String
  acl : String → String → Row Int

/-- Go's `strings.Index(s, sep)` for a one-byte separator, returning the two
sides of the first occurrence instead of its position. -/
def cut (sep : Char) : List Char → Option (List Char × List Char)
  | [] => none
  | c :: cs =>
    if c = sep then some ([], cs)
    else match cut sep cs with
      | none => none
      | some (a, b) => some (c :: a, b)

/-- Go's `strings.SplitN(s, sep, n)` on character lists, for `n ≥ 0` and a
one-byte separator: at most `n` pieces, the last one the unsplit remainder. -/
def splitNChars (sep : Char) : Nat → List Char → List (List Char)
  | 0, _ => []
  | 1, s => [s]
  | n + 2, s =>
    match cut sep s with
    | none => [s]
    | some (a, b) => a :: splitNChars sep (n + 1) b

/-- Go's `strings.SplitN(s, sep, n)`.  Go strings are byte strings; the
separator used by the file is the single byte 0x25, which never occurs inside
a multi-byte UTF-8 sequence, so splitting on characters agrees with splitting
on bytes. -/
def SplitN (s : String) (sep : Char) (n : Nat) : List String :=
  (splitNChars sep n s.data).map String.mk

/-! ## The session -/

/-- Handle of a connection or channel owned by the SSH library. -/
abbrev Handle := Nat

/-- The struct `sconn`.  The fields `conn` and `cfg` are only handed to
`ssh.NewServerConn` and are represented by the handshake script below. -/
structure sconn where
  password : String
  target : String
  meta : Option ConnMetadata
  key : Option PublicKey
  user : String
  client : Option Handle
deriving DecidableEq, Repr

/-- The struct literal `channel` built in the relaying loop; a `none` field is
a nil handle. -/
structure channel where
  channel : Option Handle
  clientChannel : Option Handle
  clientReq : Option Handle
  req : Option Handle
deriving DecidableEq, Repr

/-- The two SSH connections of a session. -/
inductive Endpoint where
  | server
  | client
deriving DecidableEq, Repr

/-- Externally visible effects. -/
inductive Event where
  | queryPassword (target : String)
  | queryHostKey (target : String)
  | queryAcl (pubkey target : String)
  | dial (addr user password : String)
  | accept (channelType : String)
  | openChannel (channelType : String) (extraData : List Nat)
  | run (c : channel)
  | close (e : Endpoint)
deriving DecidableEq, Repr

/-- The error values built by the file, and errors coming from the SSH
library: `ssh msg` is an error of the library's own, `handshakeFailed cause`
is the library's `fmt.Errorf("ssh: handshake failed: %v", cause)` around the
error that aborted a client handshake. -/
inductive Error where
  | usernameWrongFormat (user : String)
  | gettingPassword (target err : String)
  | gettingHostKey (target err : String)
  | wrongHostKey (got want : String)
  | aclRejects (pubkey target : String)
  | ssh (msg : String)
  | handshakeFailed (cause : Error)
deriving DecidableEq, Repr

/-- What a callback hands back: return value, receiver afterwards, effects. -/
structure Res (α : Type) where
  ret : α
  sc : sconn
  trace : List Event

/-- The method `pubkeyCallback`.  `ret = .inr none` is `return nil, nil`,
`ret = .inl e` is `return nil, e`. -/
def pubkeyCallback (db : DB) (sc : sconn) (m : ConnMetadata) (key : PublicKey) :
    Res (Error ⊕ Option Permissions) :=
  match SplitN m.user '%' 2 with
  | user :: target :: _ =>
    let sc1 : sconn := { sc with meta := some m, key := some key, user := user, target := target }
    match db.passwords target with
    | .err e => ⟨.inl (.gettingPassword target e), sc1, [.queryPassword target]⟩
    | .ok p => ⟨.inr none, { sc1 with password := p }, [.queryPassword target]⟩
  | _ => ⟨.inl (.usernameWrongFormat m.user), sc, []⟩

/-- The method `keyboardInteractive`: the `for range questions` loop appends
the password once per question. -/
def keyboardInteractive (sc : sconn) (_user _instruction : String)
    (questions : List String) (_echos : List Bool) : List String × Option Error :=
  (questions.foldl (fun ans _ => ans ++ [sc.password]) [], none)

/-- The method `hostKeyCallback`; `ret = none` is `return nil`. -/
def hostKeyCallback (FingerprintSHA256 : PublicKey → String) (db : DB) (sc : sconn)
    (_hostname _remote : String) (key : PublicKey) : Res (Option Error) :=
  match db.host_keys sc.target with
  | .err e => ⟨some (.gettingHostKey sc.target e), sc, [.queryHostKey sc.target]⟩
  | .ok k =>
    if FingerprintSHA256 key ≠ k then
      ⟨some (.wrongHostKey (FingerprintSHA256 key) k), sc, [.queryHostKey sc.target]⟩
    else ⟨none, sc, [.queryHostKey sc.target]⟩

/-! ## The environment of `handleConnection` -/

/-- What `ssh.NewServerConn(sc.conn, &sc.cfg)` does: the invocations of
`cfg.PublicKeyCallback` it makes, in order, and the error it returns. -/
structure Handshake where
  attempts : List (ConnMetadata × PublicKey)
  err : Option String

/-- What `ssh.Dial` meets on the way to the target: either it fails before a
host key is offered, or the target offers `key` (passed to `HostKeyCallback`
with `hostname` and `remote`), after which user authentication fails with
`auth = some msg` or yields the connection `client`. -/
inductive DialScript where
  | unreachable (msg : String)
  | offers (hostname remote : String) (key : PublicKey) (auth : Option String) (client : Handle)

/-- A value received from `chch`: the offer together with what `nch.Accept()`
and `sc.client.OpenChannel(...)` will answer for it (`(channel, requests)` or
an error). -/
structure NewChannel where
  channelType : String
  extraData : List Nat
  acceptResult : String ⊕ (Handle × Handle)
  openResult : String ⊕ (Handle × Handle)

/-- One receive of the `select`: on `chch` or on `requestch`; `none` is the
nil value delivered by a closed Go channel. -/
inductive Recv where
  | chch (nch : Option NewChannel)
  | requestch (req : Option String)

/-- Everything the outside world contributes to one `handleConnection`. -/
structure Env where
  handshake : Handshake
  dial : DialScript
  recvs : List Recv

/-- How a call ends: it returns (`nil` or an error), it panics on a nil
interface value, or it waits in `select` forever. -/
inductive Outcome where
  | returned (err : Option Error)
  | panicked
  | blocked
deriving DecidableEq, Repr

/-- The callbacks run by `ssh.NewServerConn`, threading the receiver. -/
def runHandshake (db : DB) : sconn → List (ConnMetadata × PublicKey) → sconn × List Event
  | sc, [] => (sc, [])
  | sc, (m, key) :: rest =>
    let r := pubkeyCallback db sc m key
    let r2 := runHandshake db r.sc rest
    (r2.1, r.trace ++ r2.2)

/-- The call `ssh.Dial("tcp", sc.target, cfg)` with `cfg.HostKeyCallback =
sc.hostKeyCallback`.  A failure to connect is returned as it is; an error of
the host-key callback or of user authentication aborts the client handshake
and comes back wrapped as `ssh: handshake failed: ...`. -/
def Dial (FingerprintSHA256 : PublicKey → String) (db : DB) (sc : sconn) :
    DialScript → (Error ⊕ Handle) × List Event
  | .unreachable msg => (.inl (.ssh msg), [.dial sc.target sc.user sc.password])
  | .offers hostname remote key auth client =>
    let r := hostKeyCallback FingerprintSHA256 db sc hostname remote key
    match r.ret with
    | some e => (.inl (.handshakeFailed e), .dial sc.target sc.user sc.password :: r.trace)
    | none =>
      match auth with
      | some msg =>
        (.inl (.handshakeFailed (.ssh msg)), .dial sc.target sc.user sc.password :: r.trace)
      | none => (.inr client, .dial sc.target sc.user sc.password :: r.trace)

/-- The body of `case nch := <-chch` for a non-nil offer: accept, open the
outbound channel, start the relay goroutine. -/
def handleNewChannel (nch : NewChannel) : List Event :=
  let (ch, req) : Option Handle × Option Handle :=
    match nch.acceptResult with
    | .inl _ => (none, none)
    | .inr (c, r) => (some c, some r)
  let (clientChannel, clientReq) : Option Handle × Option Handle :=
    match nch.openResult with
    | .inl _ => (none, none)
    | .inr (c, r) => (some c, some r)
  let c : channel := { channel := ch, clientChannel := clientChannel, clientReq := clientReq, req := req }
  [.accept nch.channelType, .openChannel nch.channelType nch.extraData, .run c]

/-- The loop `for !chchDone && !rchDone { select { ... } }`.  `chchNil` and
`requestchNil` say that the variable `chch` resp. `requestch` has been set to
nil (a nil channel is never selected, so a receive scripted for it is never
delivered).  The result is `true` when the loop is left and `false` when the
`select` waits with nothing more to receive. -/
def relayLoop (chchNil requestchNil chchDone rchDone : Bool) : List Recv → Bool × List Event
  | [] => if !chchDone && !rchDone then (false, []) else (true, [])
  | r :: rest =>
    if !chchDone && !rchDone then
      match r with
      | .chch nch =>
        if chchNil then relayLoop chchNil requestchNil chchDone rchDone rest
        else match nch with
          | none => relayLoop true requestchNil true rchDone rest
          | some n =>
            let out := relayLoop chchNil requestchNil chchDone rchDone rest
            (out.1, handleNewChannel n ++ out.2)
      | .requestch req =>
        if requestchNil then relayLoop chchNil requestchNil chchDone rchDone rest
        else match req with
          | none => relayLoop chchNil true chchDone true rest
          | some _ => relayLoop chchNil requestchNil chchDone rchDone rest
    else (true, [])

/-- The method `handleConnection`.  The deferred `conn.Close()` is the event
`close server`, emitted on every exit after the handshake except when the
call never returns. -/
def handleConnection (FingerprintSHA256 : PublicKey → String) (db : DB) (sc : sconn)
    (env : Env) : Res Outcome :=
  let hs := runHandshake db sc env.handshake.attempts
  let sc := hs.1
  match env.handshake.err with
  | some e => ⟨.returned (some (.ssh e)), sc, hs.2⟩
  | none =>
    match sc.key with
    | none => ⟨.panicked, sc, hs.2 ++ [.close .server]⟩
    | some key =>
      let t1 := hs.2 ++ [.queryAcl (FingerprintSHA256 key) sc.target]
      match db.acl (FingerprintSHA256 key) sc.target with
      | .err _ =>
        ⟨.returned (some (.aclRejects (FingerprintSHA256 key) sc.target)), sc, t1 ++ [.close .server]⟩
      | .ok _ =>
        let d := Dial FingerprintSHA256 db sc env.dial
        let t2 := t1 ++ d.2
        match d.1 with
        | .inl e => ⟨.returned (some e), { sc with client := none }, t2 ++ [.close .server]⟩
        | .inr client =>
          let sc : sconn := { sc with client := some client }
          let l := relayLoop false false false false env.recvs
          if l.1 then ⟨.returned none, sc, t2 ++ l.2 ++ [.close .server]⟩
          else ⟨.blocked, sc, t2 ++ l.2⟩

/-! ## Sample data

The end-to-end scenario: caller `bob` with key `bobkey` asks for
`10.0.0.5:22`, whose password is `p1` and whose pinned host key is `hostkey`. -/

/-- A stand-in for `ssh.FingerprintSHA256` on sample keys. -/
def sampleFingerprint (k : PublicKey) : String := "SHA256:" ++ k.blob

/-- A store with one target, one pinned host key and one ACL row. -/
def sampleDB : DB where
  passwords := fun t => if t = "10.0.0.5:22" then .ok "p1" else .err "sql: no rows in result set"
  host_keys := fun t =>
    if t = "10.0.0.5:22" then .ok "SHA256:hostkey" else .err "sql: no rows in result set"
  acl := fun k t =>
    if k = "SHA256:bobkey" ∧ t = "10.0.0.5:22" then .ok 1 else .err "sql: no rows in result set"

/-- The same store with an empty `acl` table. -/
def sampleDBNoAcl : DB :=
  { sampleDB with acl := fun _ _ => .err "sql: no rows in result set" }

/-- The zero value of `sconn`. -/
def sampleSession : sconn := ⟨"", "", none, none, "", none⟩

/-- The caller of the scenario. -/
def sampleMeta : ConnMetadata := ⟨"bob%10.0.0.5:22", "198.51.100.7:4022"⟩

/-- A session-type channel offer for which accept and open succeed. -/
def sampleOffer : NewChannel := ⟨"session", [], .inr (1, 2), .inr (3, 4)⟩

/-- The scenario: one successful public-key attempt, a target offering the
pinned key and accepting the password, and the given receives. -/
def sampleEnv (recvs : List Recv) : Env where
  handshake := ⟨[(sampleMeta, ⟨"bobkey"⟩)], none⟩
  dial := .offers "10.0.0.5:22" "10.0.0.5:22" ⟨"hostkey"⟩ none 7
  recvs := recvs

/-! ## Facts about `strings.SplitN` -/

theorem cut_eq_none {sep : Char} : ∀ {s : List Char}, sep ∉ s → cut sep s = none
  | [], _ => rfl
  | c :: cs, h => by
    have hc : c ≠ sep := fun e => h (by simp [e])
    have hcs : sep ∉ cs := fun e => h (by simp [e])
    simp [cut, hc, cut_eq_none hcs]

theorem cut_append {sep : Char} (t : List Char) :
    ∀ {u : List Char}, sep ∉ u → cut sep (u ++ sep :: t) = some (u, t)
  | [], _ => by simp [cut]
  | c :: cs, h => by
    have hc : c ≠ sep := fun e => h (by simp [e])
    have hcs : sep ∉ cs := fun e => h (by simp [e])
    simp [cut, hc, cut_append t hcs]

theorem cut_of_mem {sep : Char} :
    ∀ {s : List Char}, sep ∈ s → ∃ a b, cut sep s = some (a, b)
  | [], h => by simp at h
  | c :: cs, h => by
    by_cases hc : c = sep
    · exact ⟨[], cs, by simp [cut, hc]⟩
    · have hcs : sep ∈ cs := by
        rcases List.mem_cons.1 h with e | e
        · exact absurd e.symm hc
        · exact e
      obtain ⟨a, b, hab⟩ := cut_of_mem hcs
      exact ⟨c :: a, b, by simp [cut, hc, hab]⟩

theorem SplitN_two_of_not_mem {s : String} (h : '%' ∉ s.data) : SplitN s '%' 2 = [s] := by
  simp [SplitN, splitNChars, cut_eq_none h]

theorem SplitN_two_of_mem {s : String} (h : '%' ∈ s.data) :
    ∃ user target, SplitN s '%' 2 = [user, target] := by
  obtain ⟨a, b, hab⟩ := cut_of_mem h
  exact ⟨String.mk a, String.mk b, by simp [SplitN, splitNChars, hab]⟩

theorem SplitN_two_append {u : String} (t : String) (h : '%' ∉ u.data) :
    SplitN (u ++ "%" ++ t) '%' 2 = [u, t] := by
  have hd : (u ++ "%" ++ t).data = u.data ++ '%' :: t.data := by
    simp [String.data_append]
  simp [SplitN, splitNChars, hd, cut_append t.data h]

/-! ## The callbacks -/

theorem pubkeyCallback_sc_of_not_mem (db : DB) (sc : sconn) (m : ConnMetadata)
    (key : PublicKey) (h : '%' ∉ m.user.data) : (pubkeyCallback db sc m key).sc = sc := by
  simp [pubkeyCallback, SplitN_two_of_not_mem h]

/-- C3: a username without the percent sign makes `pubkeyCallback` return the
format error, issue no credential store query and leave the session (user,
target, key, password and every other field) as it was, whatever the offered
key and the store content. -/
theorem pubkeyCallback_rejects_missing_delimiter (db : DB) (sc : sconn) (m : ConnMetadata)
    (key : PublicKey) (h : '%' ∉ m.user.data) :
    (pubkeyCallback db sc m key).ret = .inl (.usernameWrongFormat m.user) ∧
    (pubkeyCallback db sc m key).trace = [] ∧
    (pubkeyCallback db sc m key).sc = sc := by
  simp [pubkeyCallback, SplitN_two_of_not_mem h]

/-- C3 at the username `alice`. -/
theorem pubkeyCallback_rejects_missing_delimiter_witness :
    '%' ∉ "alice".data ∧
    (pubkeyCallback ⟨fun _ => .ok "p1", fun _ => .err "no rows", fun _ _ => .err "no rows"⟩
        ⟨"old", "t0", none, none, "u0", none⟩ ⟨"alice", "198.51.100.7:4022"⟩ ⟨"k1"⟩).ret
      = .inl (.usernameWrongFormat "alice") ∧
    (pubkeyCallback ⟨fun _ => .ok "p1", fun _ => .err "no rows", fun _ _ => .err "no rows"⟩
        ⟨"old", "t0", none, none, "u0", none⟩ ⟨"alice", "198.51.100.7:4022"⟩ ⟨"k1"⟩).trace = [] ∧
    (pubkeyCallback ⟨fun _ => .ok "p1", fun _ => .err "no rows", fun _ _ => .err "no rows"⟩
        ⟨"old", "t0", none, none, "u0", none⟩ ⟨"alice", "198.51.100.7:4022"⟩ ⟨"k1"⟩).sc
      = ⟨"old", "t0", none, none, "u0", none⟩ :=
  ⟨by decide, pubkeyCallback_rejects_missing_delimiter _ _ ⟨"alice", "198.51.100.7:4022"⟩ _
    (by decide)⟩

/-- C4: for a username `u ++ "%" ++ t` with no percent sign in `u`,
`pubkeyCallback` records user `u` and target `t` (the split is at the first
percent sign only, `t` may contain more), and its one store query is the
password query keyed by `t`. -/
theorem pubkeyCallback_splits_at_first_delimiter (db : DB) (sc : sconn) (u t remote : String)
    (key : PublicKey) (h : '%' ∉ u.data) :
    (pubkeyCallback db sc ⟨u ++ "%" ++ t, remote⟩ key).sc.user = u ∧
    (pubkeyCallback db sc ⟨u ++ "%" ++ t, remote⟩ key).sc.target = t ∧
    (pubkeyCallback db sc ⟨u ++ "%" ++ t, remote⟩ key).trace = [.queryPassword t] := by
  simp only [pubkeyCallback, SplitN_two_append t h]
  cases db.passwords t <;> simp

/-- C4 at `alice%host:22`: user `alice`, target `host:22`. -/
theorem pubkeyCallback_splits_at_first_delimiter_witness :
    '%' ∉ "alice".data ∧ "alice" ++ "%" ++ "host:22" = "alice%host:22" ∧
    (pubkeyCallback ⟨fun _ => .ok "p1", fun _ => .err "no rows", fun _ _ => .err "no rows"⟩
        ⟨"", "", none, none, "", none⟩ ⟨"alice" ++ "%" ++ "host:22", "198.51.100.7:4022"⟩
        ⟨"k1"⟩).sc.user = "alice" ∧
    (pubkeyCallback ⟨fun _ => .ok "p1", fun _ => .err "no rows", fun _ _ => .err "no rows"⟩
        ⟨"", "", none, none, "", none⟩ ⟨"alice" ++ "%" ++ "host:22", "198.51.100.7:4022"⟩
        ⟨"k1"⟩).sc.target = "host:22" ∧
    (pubkeyCallback ⟨fun _ => .ok "p1", fun _ => .err "no rows", fun _ _ => .err "no rows"⟩
        ⟨"", "", none, none, "", none⟩ ⟨"alice" ++ "%" ++ "host:22", "198.51.100.7:4022"⟩
        ⟨"k1"⟩).trace = [.queryPassword "host:22"] :=
  ⟨by decide, by decide, pubkeyCallback_splits_at_first_delimiter _ _ "alice" "host:22" _ _
    (by decide)⟩

theorem foldl_append_const (p : String) (qs : List String) :
    ∀ acc : List String,
      qs.foldl (fun ans _ => ans ++ [p]) acc = acc ++ List.replicate qs.length p := by
  induction qs with
  | nil => intro acc; simp
  | cons q qs ih =>
    intro acc
    simp [List.foldl_cons, ih, List.replicate_succ]

/-- C7: `keyboardInteractive` returns no error and exactly one answer per
question, each equal to the session password, for every question list (the
empty one included) and whatever the user, instruction and echo arguments. -/
theorem keyboardInteractive_answers_password (sc : sconn) (user instruction : String)
    (questions : List String) (echos : List Bool) :
    (keyboardInteractive sc user instruction questions echos).2 = none ∧
    (keyboardInteractive sc user instruction questions echos).1.length = questions.length ∧
    (∀ a ∈ (keyboardInteractive sc user instruction questions echos).1, a = sc.password) ∧
    (∀ (user2 instruction2 : String) (echos2 : List Bool),
      keyboardInteractive sc user2 instruction2 questions echos2
        = keyboardInteractive sc user instruction questions echos) := by
  have h := foldl_append_const sc.password questions []
  simp only [List.nil_append] at h
  refine ⟨rfl, ?_, ?_, fun _ _ _ => rfl⟩
  · simp [keyboardInteractive, h]
  · intro a ha
    simp only [keyboardInteractive, h] at ha
    exact List.eq_of_mem_replicate ha

/-- C8: for a username containing the percent sign, `pubkeyCallback` returns
success with nil permissions exactly when the store has a password for the
parsed target, the session password is then that stored password; the offered
key and the connection metadata are recorded on the session whether or not the
lookup succeeds, and return value, effects and recorded user, target and
password are the same for every offered key. -/
theorem pubkeyCallback_success_iff_password (db : DB) (sc : sconn) (m : ConnMetadata)
    (key : PublicKey) (h : '%' ∈ m.user.data) :
    ∃ user target, SplitN m.user '%' 2 = [user, target] ∧
      ((pubkeyCallback db sc m key).ret = .inr none ↔ ∃ p, db.passwords target = .ok p) ∧
      (∀ p, db.passwords target = .ok p → (pubkeyCallback db sc m key).sc.password = p) ∧
      (pubkeyCallback db sc m key).sc.key = some key ∧
      (pubkeyCallback db sc m key).sc.meta = some m ∧
      (∀ key2 : PublicKey,
        (pubkeyCallback db sc m key2).ret = (pubkeyCallback db sc m key).ret ∧
        (pubkeyCallback db sc m key2).trace = (pubkeyCallback db sc m key).trace ∧
        (pubkeyCallback db sc m key2).sc.password = (pubkeyCallback db sc m key).sc.password ∧
        (pubkeyCallback db sc m key2).sc.user = (pubkeyCallback db sc m key).sc.user ∧
        (pubkeyCallback db sc m key2).sc.target = (pubkeyCallback db sc m key).sc.target) := by
  obtain ⟨user, target, hs⟩ := SplitN_two_of_mem h
  refine ⟨user, target, hs, ?_, ?_, ?_, ?_, ?_⟩
  · simp only [pubkeyCallback, hs]
    cases db.passwords target <;> simp
  · intro p hp
    simp [pubkeyCallback, hs, hp]
  · simp only [pubkeyCallback, hs]
    cases db.passwords target <;> rfl
  · simp only [pubkeyCallback, hs]
    cases db.passwords target <;> rfl
  · intro key2
    simp only [pubkeyCallback, hs]
    cases db.passwords target <;> simp

/-- C8 in the sample scenario. -/
theorem pubkeyCallback_success_iff_password_witness :
    '%' ∈ sampleMeta.user.data ∧
    ∃ user target, SplitN sampleMeta.user '%' 2 = [user, target] ∧
      ((pubkeyCallback sampleDB sampleSession sampleMeta ⟨"bobkey"⟩).ret = .inr none ↔
        ∃ p, sampleDB.passwords target = .ok p) ∧
      (∀ p, sampleDB.passwords target = .ok p →
        (pubkeyCallback sampleDB sampleSession sampleMeta ⟨"bobkey"⟩).sc.password = p) ∧
      (pubkeyCallback sampleDB sampleSession sampleMeta ⟨"bobkey"⟩).sc.key = some ⟨"bobkey"⟩ ∧
      (pubkeyCallback sampleDB sampleSession sampleMeta ⟨"bobkey"⟩).sc.meta = some sampleMeta ∧
      (∀ key2 : PublicKey,
        (pubkeyCallback sampleDB sampleSession sampleMeta key2).ret
          = (pubkeyCallback sampleDB sampleSession sampleMeta ⟨"bobkey"⟩).ret ∧
        (pubkeyCallback sampleDB sampleSession sampleMeta key2).trace
          = (pubkeyCallback sampleDB sampleSession sampleMeta ⟨"bobkey"⟩).trace ∧
        (pubkeyCallback sampleDB sampleSession sampleMeta key2).sc.password
          = (pubkeyCallback sampleDB sampleSession sampleMeta ⟨"bobkey"⟩).sc.password ∧
        (pubkeyCallback sampleDB sampleSession sampleMeta key2).sc.user
          = (pubkeyCallback sampleDB sampleSession sampleMeta ⟨"bobkey"⟩).sc.user ∧
        (pubkeyCallback sampleDB sampleSession sampleMeta key2).sc.target
          = (pubkeyCallback sampleDB sampleSession sampleMeta ⟨"bobkey"⟩).sc.target) :=
  ⟨by decide, pubkeyCallback_success_iff_password sampleDB sampleSession sampleMeta ⟨"bobkey"⟩
    (by decide)⟩

/-- C2: `hostKeyCallback` returns nil exactly when the store row for the
session target is the very string `FingerprintSHA256 key`; a failed query and
any other stored string (a proper initial segment of the fingerprint included)
give an error, and nothing depends on the hostname and remote-address
arguments. -/
theorem hostKeyCallback_ok_iff_pinned (FingerprintSHA256 : PublicKey → String) (db : DB)
    (sc : sconn) (hostname remote : String) (key : PublicKey) :
    ((hostKeyCallback FingerprintSHA256 db sc hostname remote key).ret = none ↔
      db.host_keys sc.target = .ok (FingerprintSHA256 key)) ∧
    (∀ e, db.host_keys sc.target = .err e →
      (hostKeyCallback FingerprintSHA256 db sc hostname remote key).ret
        = some (.gettingHostKey sc.target e)) ∧
    (∀ k, db.host_keys sc.target = .ok k → k ≠ FingerprintSHA256 key →
      (hostKeyCallback FingerprintSHA256 db sc hostname remote key).ret
        = some (.wrongHostKey (FingerprintSHA256 key) k)) ∧
    (∀ hostname2 remote2 : String,
      hostKeyCallback FingerprintSHA256 db sc hostname2 remote2 key
        = hostKeyCallback FingerprintSHA256 db sc hostname remote key) := by
  refine ⟨?_, ?_, ?_, fun _ _ => rfl⟩
  · unfold hostKeyCallback
    cases hq : db.host_keys sc.target with
    | err e => simp
    | ok k =>
      by_cases hk : FingerprintSHA256 key = k
      · simp [hk]
      · have hk2 : k ≠ FingerprintSHA256 key := fun e => hk e.symm
        simp [hk, hk2]
  · intro e he
    simp [hostKeyCallback, he]
  · intro k hk hne
    have hne2 : FingerprintSHA256 key ≠ k := fun e => hne e.symm
    simp [hostKeyCallback, hk, hne2]

theorem pubkeyCallback_user_target (db : DB) (sc : sconn) (m : ConnMetadata) (key : PublicKey)
    {user target : String} (hs : SplitN m.user '%' 2 = [user, target]) :
    (pubkeyCallback db sc m key).sc.user = user ∧
    (pubkeyCallback db sc m key).sc.target = target := by
  simp only [pubkeyCallback, hs]
  cases db.passwords target <;> simp

/-- C9 as stated fails: after `bob%10.0.0.5:22` has been recorded, a second
invocation with `eve%203.0.113.9:22` (whose password lookup fails) replaces
user and target, while the password held is still the one of the first
target. -/
theorem pubkeyCallback_overwrites_user_target :
    (pubkeyCallback sampleDB sampleSession sampleMeta ⟨"bobkey"⟩).sc.user = "bob" ∧
    (pubkeyCallback sampleDB sampleSession sampleMeta ⟨"bobkey"⟩).sc.target = "10.0.0.5:22" ∧
    (pubkeyCallback sampleDB (pubkeyCallback sampleDB sampleSession sampleMeta ⟨"bobkey"⟩).sc
        ⟨"eve%203.0.113.9:22", "198.51.100.7:4022"⟩ ⟨"evekey"⟩).sc.user = "eve" ∧
    (pubkeyCallback sampleDB (pubkeyCallback sampleDB sampleSession sampleMeta ⟨"bobkey"⟩).sc
        ⟨"eve%203.0.113.9:22", "198.51.100.7:4022"⟩ ⟨"evekey"⟩).sc.target = "203.0.113.9:22" ∧
    (pubkeyCallback sampleDB (pubkeyCallback sampleDB sampleSession sampleMeta ⟨"bobkey"⟩).sc
        ⟨"eve%203.0.113.9:22", "198.51.100.7:4022"⟩ ⟨"evekey"⟩).sc.password = "p1" ∧
    ¬ ((pubkeyCallback sampleDB (pubkeyCallback sampleDB sampleSession sampleMeta ⟨"bobkey"⟩).sc
          ⟨"eve%203.0.113.9:22", "198.51.100.7:4022"⟩ ⟨"evekey"⟩).sc.user
        = (pubkeyCallback sampleDB sampleSession sampleMeta ⟨"bobkey"⟩).sc.user ∧
      (pubkeyCallback sampleDB (pubkeyCallback sampleDB sampleSession sampleMeta ⟨"bobkey"⟩).sc
          ⟨"eve%203.0.113.9:22", "198.51.100.7:4022"⟩ ⟨"evekey"⟩).sc.target
        = (pubkeyCallback sampleDB sampleSession sampleMeta ⟨"bobkey"⟩).sc.target) := by
  decide

/-- C9, as the code has it: once an invocation has recorded user and target, a
later `pubkeyCallback` on the same session leaves both unchanged exactly when
its username has no percent sign or splits into the same user and target, in
particular when it repeats the username; any other username replaces them by
its own parse.  The host-key lookup is keyed by the target the session holds
when it runs. -/
theorem pubkeyCallback_user_target_stable_iff (FingerprintSHA256 : PublicKey → String)
    (db1 db2 : DB) (sc : sconn) (m1 m2 : ConnMetadata) (k1 k2 hostKey : PublicKey)
    (hostname remote : String) (h1 : '%' ∈ m1.user.data) :
    (((pubkeyCallback db2 (pubkeyCallback db1 sc m1 k1).sc m2 k2).sc.user
          = (pubkeyCallback db1 sc m1 k1).sc.user ∧
        (pubkeyCallback db2 (pubkeyCallback db1 sc m1 k1).sc m2 k2).sc.target
          = (pubkeyCallback db1 sc m1 k1).sc.target) ↔
      ('%' ∉ m2.user.data ∨ SplitN m2.user '%' 2 = SplitN m1.user '%' 2)) ∧
    (m2.user = m1.user →
      (pubkeyCallback db2 (pubkeyCallback db1 sc m1 k1).sc m2 k2).sc.user
          = (pubkeyCallback db1 sc m1 k1).sc.user ∧
        (pubkeyCallback db2 (pubkeyCallback db1 sc m1 k1).sc m2 k2).sc.target
          = (pubkeyCallback db1 sc m1 k1).sc.target) ∧
    (∀ user target, SplitN m2.user '%' 2 = [user, target] →
      (pubkeyCallback db2 (pubkeyCallback db1 sc m1 k1).sc m2 k2).sc.user = user ∧
        (pubkeyCallback db2 (pubkeyCallback db1 sc m1 k1).sc m2 k2).sc.target = target) ∧
    (hostKeyCallback FingerprintSHA256 db2
        (pubkeyCallback db2 (pubkeyCallback db1 sc m1 k1).sc m2 k2).sc hostname remote hostKey).trace
      = [.queryHostKey (pubkeyCallback db2 (pubkeyCallback db1 sc m1 k1).sc m2 k2).sc.target] := by
  obtain ⟨u1, t1, hs1⟩ := SplitN_two_of_mem h1
  obtain ⟨hu1, ht1⟩ := pubkeyCallback_user_target db1 sc m1 k1 hs1
  have key : ((pubkeyCallback db2 (pubkeyCallback db1 sc m1 k1).sc m2 k2).sc.user
          = (pubkeyCallback db1 sc m1 k1).sc.user ∧
        (pubkeyCallback db2 (pubkeyCallback db1 sc m1 k1).sc m2 k2).sc.target
          = (pubkeyCallback db1 sc m1 k1).sc.target) ↔
      ('%' ∉ m2.user.data ∨ SplitN m2.user '%' 2 = SplitN m1.user '%' 2) := by
    by_cases h2 : '%' ∈ m2.user.data
    · obtain ⟨u2, t2, hs2⟩ := SplitN_two_of_mem h2
      obtain ⟨hu2, ht2⟩ := pubkeyCallback_user_target db2 (pubkeyCallback db1 sc m1 k1).sc m2 k2 hs2
      rw [hu2, ht2, hu1, ht1, hs1, hs2]
      simp [h2]
    · have h3 := (pubkeyCallback_sc_of_not_mem db2
        (pubkeyCallback db1 sc m1 k1).sc m2 k2 h2)
      rw [h3]
      simp [h2]
  refine ⟨key, ?_, ?_, ?_⟩
  · intro he
    exact key.2 (Or.inr (by rw [he]))
  · intro user target hs
    exact pubkeyCallback_user_target db2 _ m2 k2 hs
  · unfold hostKeyCallback
    split
    · rfl
    · split <;> rfl

/-- C9 when the second invocation repeats the username of the first. -/
theorem pubkeyCallback_user_target_stable_iff_witness :
    (pubkeyCallback sampleDB (pubkeyCallback sampleDB sampleSession sampleMeta ⟨"bobkey"⟩).sc
        sampleMeta ⟨"otherkey"⟩).sc.user
      = (pubkeyCallback sampleDB sampleSession sampleMeta ⟨"bobkey"⟩).sc.user ∧
    (pubkeyCallback sampleDB (pubkeyCallback sampleDB sampleSession sampleMeta ⟨"bobkey"⟩).sc
        sampleMeta ⟨"otherkey"⟩).sc.target
      = (pubkeyCallback sampleDB sampleSession sampleMeta ⟨"bobkey"⟩).sc.target :=
  (pubkeyCallback_user_target_stable_iff sampleFingerprint sampleDB sampleDB sampleSession
    sampleMeta sampleMeta ⟨"bobkey"⟩ ⟨"otherkey"⟩ ⟨"hostkey"⟩ "10.0.0.5:22" "10.0.0.5:22"
    (by decide)).2.1 rfl

/-! ## `handleConnection` -/

theorem pubkeyCallback_trace_queries (db : DB) (sc : sconn) (m : ConnMetadata) (key : PublicKey) :
    ∀ e ∈ (pubkeyCallback db sc m key).trace, ∃ t, e = .queryPassword t := by
  intro e he
  unfold pubkeyCallback at he
  split at he
  · split at he <;> simp at he <;> exact ⟨_, he⟩
  · simp at he

theorem runHandshake_trace_queries (db : DB) :
    ∀ (l : List (ConnMetadata × PublicKey)) (sc : sconn),
      ∀ e ∈ (runHandshake db sc l).2, ∃ t, e = .queryPassword t
  | [], sc => by simp [runHandshake]
  | (m, key) :: rest, sc => by
    intro e he
    simp only [runHandshake, List.mem_append] at he
    rcases he with he | he
    · exact pubkeyCallback_trace_queries db sc m key e he
    · exact runHandshake_trace_queries db rest _ e he

/-- C1: when the inbound handshake has succeeded and the ACL query for the
fingerprint of the recorded key and the recorded target yields no row or
fails, `handleConnection` returns the ACL error, and its effects contain no
dial and no relay start. -/
theorem handleConnection_acl_denied_no_dial (FingerprintSHA256 : PublicKey → String) (db : DB)
    (sc : sconn) (env : Env) (key : PublicKey) (msg : String)
    (hhs : env.handshake.err = none)
    (hkey : (runHandshake db sc env.handshake.attempts).1.key = some key)
    (hacl : db.acl (FingerprintSHA256 key) (runHandshake db sc env.handshake.attempts).1.target
      = .err msg) :
    (handleConnection FingerprintSHA256 db sc env).ret
      = .returned (some (.aclRejects (FingerprintSHA256 key)
          (runHandshake db sc env.handshake.attempts).1.target)) ∧
    (∀ addr user password,
      Event.dial addr user password ∉ (handleConnection FingerprintSHA256 db sc env).trace) ∧
    (∀ c, Event.run c ∉ (handleConnection FingerprintSHA256 db sc env).trace) := by
  have hq := runHandshake_trace_queries db env.handshake.attempts sc
  refine ⟨by simp [handleConnection, hhs, hkey, hacl], ?_, ?_⟩
  · intro addr user password hmem
    simp only [handleConnection, hhs, hkey, hacl, List.mem_append, List.mem_singleton] at hmem
    rcases hmem with (hmem | hmem) | hmem
    · obtain ⟨t, ht⟩ := hq _ hmem
      cases ht
    · cases hmem
    · cases hmem
  · intro c hmem
    simp only [handleConnection, hhs, hkey, hacl, List.mem_append, List.mem_singleton] at hmem
    rcases hmem with (hmem | hmem) | hmem
    · obtain ⟨t, ht⟩ := hq _ hmem
      cases ht
    · cases hmem
    · cases hmem

/-- C1 in the sample scenario with an empty `acl` table. -/
theorem handleConnection_acl_denied_no_dial_witness :
    (handleConnection sampleFingerprint sampleDBNoAcl sampleSession
        (sampleEnv [.chch (some sampleOffer), .chch none, .requestch none])).ret
      = .returned (some (.aclRejects (sampleFingerprint ⟨"bobkey"⟩)
          (runHandshake sampleDBNoAcl sampleSession
            (sampleEnv [.chch (some sampleOffer), .chch none, .requestch none]).handshake.attempts).1.target)) ∧
    (∀ addr user password,
      Event.dial addr user password ∉ (handleConnection sampleFingerprint sampleDBNoAcl sampleSession
        (sampleEnv [.chch (some sampleOffer), .chch none, .requestch none])).trace) ∧
    (∀ c, Event.run c ∉ (handleConnection sampleFingerprint sampleDBNoAcl sampleSession
        (sampleEnv [.chch (some sampleOffer), .chch none, .requestch none])).trace) :=
  handleConnection_acl_denied_no_dial sampleFingerprint sampleDBNoAcl sampleSession
    (sampleEnv [.chch (some sampleOffer), .chch none, .requestch none]) ⟨"bobkey"⟩
    "sql: no rows in result set" rfl (by decide) (by decide)

theorem getLast?_snoc {α : Type} (l : List α) (a : α) : (l ++ [a]).getLast? = some a := by
  simp

theorem handleNewChannel_no_close (n : NewChannel) :
    ∀ e ∈ handleNewChannel n, ∀ ep, e ≠ .close ep := by
  intro e he ep
  simp only [handleNewChannel, List.mem_cons, List.mem_singleton, List.not_mem_nil, or_false] at he
  rcases he with he | he | he <;> subst he <;> simp

theorem relayLoop_no_close :
    ∀ (l : List Recv) (a b c d : Bool), ∀ e ∈ (relayLoop a b c d l).2, ∀ ep, e ≠ .close ep
  | [], a, b, c, d => by
    intro e he
    unfold relayLoop at he
    split at he <;> simp at he
  | r :: rest, a, b, c, d => by
    intro e he
    unfold relayLoop at he
    split at he
    · split at he
      · split at he
        · exact relayLoop_no_close rest _ _ _ _ e he
        · split at he
          · exact relayLoop_no_close rest _ _ _ _ e he
          · simp only [List.mem_append] at he
            rcases he with he | he
            · exact handleNewChannel_no_close _ e he
            · exact relayLoop_no_close rest _ _ _ _ e he
      · split at he
        · exact relayLoop_no_close rest _ _ _ _ e he
        · split at he
          · exact relayLoop_no_close rest _ _ _ _ e he
          · exact relayLoop_no_close rest _ _ _ _ e he
    · simp at he

theorem Dial_no_close (fp : PublicKey → String) (db : DB) (sc : sconn) (d : DialScript) :
    ∀ e ∈ (Dial fp db sc d).2, ∀ ep, e ≠ .close ep := by
  intro e he ep
  cases d with
  | unreachable msg =>
    simp only [Dial, List.mem_singleton] at he
    subst he; simp
  | offers hostname remote key auth client =>
    have hk : (hostKeyCallback fp db sc hostname remote key).trace = [.queryHostKey sc.target] := by
      unfold hostKeyCallback
      split
      · rfl
      · split <;> rfl
    have hmem : e = .dial sc.target sc.user sc.password ∨ e = .queryHostKey sc.target := by
      unfold Dial at he
      simp only [hk] at he
      split at he
      · simpa using he
      · split at he <;> simpa using he
    rcases hmem with h | h <;> subst h <;> simp

theorem runHandshake_no_close (db : DB) (l : List (ConnMetadata × PublicKey)) (sc : sconn) :
    ∀ e ∈ (runHandshake db sc l).2, ∀ ep, e ≠ .close ep := by
  intro e he ep
  obtain ⟨t, ht⟩ := runHandshake_trace_queries db l sc e he
  subst ht; simp

/-- C10, as the code has it: whenever `handleConnection` returns after the
inbound handshake has succeeded (after the relaying loop in particular), its
last effect is the deferred close of the inbound server connection, and it has
issued no close of the outbound client connection. -/
theorem handleConnection_closes_server_conn (FingerprintSHA256 : PublicKey → String) (db : DB)
    (sc : sconn) (env : Env) (err : Option Error)
    (hhs : env.handshake.err = none)
    (hret : (handleConnection FingerprintSHA256 db sc env).ret = .returned err) :
    (handleConnection FingerprintSHA256 db sc env).trace.getLast? = some (.close .server) ∧
    Event.close .client ∉ (handleConnection FingerprintSHA256 db sc env).trace := by
  have h1 := runHandshake_no_close db env.handshake.attempts sc
  have h2 := Dial_no_close FingerprintSHA256 db (runHandshake db sc env.handshake.attempts).1 env.dial
  have h3 := relayLoop_no_close env.recvs false false false false
  unfold handleConnection at hret ⊢
  simp only [hhs] at hret ⊢
  cases hk : (runHandshake db sc env.handshake.attempts).1.key with
  | none => simp [hk] at hret
  | some key =>
    simp only [hk] at hret ⊢
    cases ha : db.acl (FingerprintSHA256 key) (runHandshake db sc env.handshake.attempts).1.target with
    | err msg =>
      simp only [ha]
      refine ⟨getLast?_snoc _ _, ?_⟩
      intro hmem
      simp only [List.mem_append, List.mem_singleton] at hmem
      rcases hmem with (hmem | hmem) | hmem
      · exact h1 _ hmem _ rfl
      · cases hmem
      · cases hmem
    | ok n =>
      simp only [ha] at hret ⊢
      cases hd : (Dial FingerprintSHA256 db (runHandshake db sc env.handshake.attempts).1 env.dial).1 with
      | inl e =>
        simp only [hd]
        refine ⟨getLast?_snoc _ _, ?_⟩
        intro hmem
        simp only [List.mem_append, List.mem_singleton] at hmem
        rcases hmem with ((hmem | hmem) | hmem) | hmem
        · exact h1 _ hmem _ rfl
        · cases hmem
        · exact h2 _ hmem _ rfl
        · cases hmem
      | inr client =>
        simp only [hd] at hret ⊢
        cases hl : (relayLoop false false false false env.recvs).1 with
        | false => simp [hl] at hret
        | true =>
          simp only [hl, if_true]
          refine ⟨getLast?_snoc _ _, ?_⟩
          intro hmem
          simp only [List.mem_append, List.mem_singleton] at hmem
          rcases hmem with (((hmem | hmem) | hmem) | hmem) | hmem
          · exact h1 _ hmem _ rfl
          · cases hmem
          · exact h2 _ hmem _ rfl
          · exact h3 _ hmem _ rfl
          · cases hmem

/-- C10 in the sample scenario, one channel offer and then the end of the
channel stream. -/
theorem handleConnection_closes_server_conn_witness :
    (handleConnection sampleFingerprint sampleDB sampleSession
        (sampleEnv [.chch (some sampleOffer), .chch none])).trace.getLast?
      = some (.close .server) ∧
    Event.close .client ∉ (handleConnection sampleFingerprint sampleDB sampleSession
        (sampleEnv [.chch (some sampleOffer), .chch none])).trace :=
  handleConnection_closes_server_conn sampleFingerprint sampleDB sampleSession
    (sampleEnv [.chch (some sampleOffer), .chch none]) none rfl (by decide)

/-- C10 as stated fails: in the sample scenario the dial succeeds (the client
handle is recorded), the loop ends, `handleConnection` returns nil, and no
close of the outbound client connection has happened. -/
theorem handleConnection_client_left_open :
    (handleConnection sampleFingerprint sampleDB sampleSession
        (sampleEnv [.chch (some sampleOffer), .chch none])).ret = .returned none ∧
    (handleConnection sampleFingerprint sampleDB sampleSession
        (sampleEnv [.chch (some sampleOffer), .chch none])).sc.client = some 7 ∧
    (handleConnection sampleFingerprint sampleDB sampleSession
        (sampleEnv [.chch (some sampleOffer), .chch none])).trace
      = [.queryPassword "10.0.0.5:22", .queryAcl "SHA256:bobkey" "10.0.0.5:22",
         .dial "10.0.0.5:22" "bob" "p1", .queryHostKey "10.0.0.5:22",
         .accept "session", .openChannel "session" [], .run ⟨some 1, some 3, some 4, some 2⟩,
         .close .server] ∧
    Event.close .client ∉ (handleConnection sampleFingerprint sampleDB sampleSession
        (sampleEnv [.chch (some sampleOffer), .chch none])).trace := by
  decide

/-- C5 at its failing input: the request stream ends first and a channel offer
follows.  The loop is left at once: `handleConnection` returns nil and the
offer is neither accepted nor relayed. -/
theorem handleConnection_stops_at_first_stream_end :
    (handleConnection sampleFingerprint sampleDB sampleSession
        (sampleEnv [.requestch none, .chch (some sampleOffer), .chch none])).ret
      = .returned none ∧
    (handleConnection sampleFingerprint sampleDB sampleSession
        (sampleEnv [.requestch none, .chch (some sampleOffer), .chch none])).trace
      = [.queryPassword "10.0.0.5:22", .queryAcl "SHA256:bobkey" "10.0.0.5:22",
         .dial "10.0.0.5:22" "bob" "p1", .queryHostKey "10.0.0.5:22", .close .server] ∧
    (∀ rest : List Recv, relayLoop false false false false (.requestch none :: rest) = (true, [])) ∧
    (∀ rest : List Recv, relayLoop false false false false (.chch none :: rest) = (true, [])) := by
  refine ⟨by decide, by decide, ?_, ?_⟩
  · intro rest
    cases rest <;> simp [relayLoop]
  · intro rest
    cases rest <;> simp [relayLoop]

/-- C6 at its failing inputs: for an offer whose `Accept` fails, and for one
whose `OpenChannel` fails, the relay is started all the same, on a channel
struct with nil handles; `handleConnection` still returns nil. -/
theorem handleConnection_relays_failed_channel :
    (handleConnection sampleFingerprint sampleDB sampleSession
        (sampleEnv [.chch (some ⟨"session", [], .inl "rejected", .inr (3, 4)⟩), .chch none])).ret
      = .returned none ∧
    Event.run ⟨none, some 3, some 4, none⟩ ∈
      (handleConnection sampleFingerprint sampleDB sampleSession
        (sampleEnv [.chch (some ⟨"session", [], .inl "rejected", .inr (3, 4)⟩), .chch none])).trace ∧
    (handleConnection sampleFingerprint sampleDB sampleSession
        (sampleEnv [.chch (some ⟨"session", [], .inr (1, 2), .inl "refused"⟩), .chch none])).ret
      = .returned none ∧
    Event.run ⟨some 1, none, none, some 2⟩ ∈
      (handleConnection sampleFingerprint sampleDB sampleSession
        (sampleEnv [.chch (some ⟨"session", [], .inr (1, 2), .inl "refused"⟩), .chch none])).trace := by
  decide

end Jumpgate
